import Mathlib

/-!
Shallow embedding of the NexStar hand-controller protocol client
(`nexstar/__init__.py`) and proofs about its behaviour.

Modelling conventions:
* The serial device is modelled as a list of incoming bytes (`List Nat`);
  `device.read(n)` returns the first `min n length` bytes and consumes them.
* Python `bytes` values are `List Nat` with entries in `0..255`.
* Python exceptions are the explicit error type `Err` below; fallible code
  returns `Except Err`.
* Python floats are modelled as rationals; `round` is round-half-to-even
  (`pythonRound`), Python `//` and `%` on integers are floor division and
  modulus (`Int.fdiv` / `Int.fmod`, or `Nat` division where the operands are
  known non-negative).
-/

set_option maxRecDepth 4000

/-- Diagnostic detail carried by a `NexstarProtocolError`; one constructor per
raise site in the source, standing for the corresponding message text. -/
inductive ProtocolDetail where
  /-- read_binary() failed: actual response length not equal to expected
  response length (carries both lengths). -/
  | badLength (actual expected : Nat)
  /-- read_binary() failed: response does not end with hash character
  (ASCII 35). -/
  | missingHash
  /-- getPosition() failed: unexpected response (split on comma did not give
  two fields; carries the number of fields). -/
  | badSplit (fields : Nat)
  /-- echo() failed: unexpected response (carries the byte received). -/
  | echoMismatch (received : Nat)
  /-- passthrough(): extra hash not found. -/
  | extraHashNotFound
deriving DecidableEq, Repr

/-- Errors raised by the client: the three library exception classes plus the
builtin Python exceptions the code can raise.  A `NexstarProtocolError`
carries an optional chained cause (`raise ... from exc`); in this code base
the cause is always itself a protocol error, recorded by its detail. -/
inductive Err where
  | usageError (msg : String)
  | protocolError (detail : ProtocolDetail) (cause : Option ProtocolDetail)
  | passthroughError (msg : String)
  | valueError
  | indexError
  | nameError (missing : String)
deriving DecidableEq, Repr

/-- NexstarCommand: every command starts with a single ASCII character; the
value is that characters code. -/
inductive NexstarCommand where
  | GET_POSITION_RA_DEC
  | GET_POSITION_RA_DEC_PRECISE
  | GET_POSITION_AZM_ALT
  | GET_POSITION_AZM_ALT_PRECISE
  | GOTO_POSITION_RA_DEC
  | GOTO_POSITION_RA_DEC_PRECISE
  | GOTO_POSITION_AZM_ALT
  | GOTO_POSITION_AZM_ALT_PRECISE
  | SYNC
  | SYNC_PRECISE
  | GET_TRACKING_MODE
  | SET_TRACKING_MODE
  | GET_LOCATION
  | SET_LOCATION
  | GET_TIME
  | SET_TIME
  | GET_VERSION
  | GET_MODEL
  | ECHO
  | GET_ALIGNMENT_COMPLETE
  | GET_GOTO_IN_PROGRESS
  | CANCEL_GOTO
  | PASSTHROUGH
deriving DecidableEq, Repr

/-- ASCII code of the single-character command value from the source. -/
def NexstarCommand.value : NexstarCommand → Nat
  | .GET_POSITION_RA_DEC => 69            -- E
  | .GET_POSITION_RA_DEC_PRECISE => 101   -- e
  | .GET_POSITION_AZM_ALT => 90           -- Z
  | .GET_POSITION_AZM_ALT_PRECISE => 122  -- z
  | .GOTO_POSITION_RA_DEC => 82           -- R
  | .GOTO_POSITION_RA_DEC_PRECISE => 114  -- r
  | .GOTO_POSITION_AZM_ALT => 66          -- B
  | .GOTO_POSITION_AZM_ALT_PRECISE => 98  -- b
  | .SYNC => 83                           -- S
  | .SYNC_PRECISE => 115                  -- s
  | .GET_TRACKING_MODE => 116             -- t
  | .SET_TRACKING_MODE => 84              -- T
  | .GET_LOCATION => 119                  -- w
  | .SET_LOCATION => 87                   -- W
  | .GET_TIME => 104                      -- h
  | .SET_TIME => 72                       -- H
  | .GET_VERSION => 86                    -- V
  | .GET_MODEL => 109                     -- m
  | .ECHO => 75                           -- K
  | .GET_ALIGNMENT_COMPLETE => 74         -- J
  | .GET_GOTO_IN_PROGRESS => 76           -- L
  | .CANCEL_GOTO => 77                    -- M
  | .PASSTHROUGH => 80                    -- P

/-- NexstarPassthroughCommand enumeration. -/
inductive NexstarPassthroughCommand where
  | MOTOR_SLEW_POSITIVE_VARIABLE_RATE
  | MOTOR_SLEW_NEGATIVE_VARIABLE_RATE
  | MOTOR_SLEW_POSITIVE_FIXED_RATE
  | MOTOR_SLEW_NEGATIVE_FIXED_RATE
  | GET_DEVICE_VERSION
deriving DecidableEq, Repr

/-- Numeric value of a passthrough sub-command. -/
def NexstarPassthroughCommand.value : NexstarPassthroughCommand → Nat
  | .MOTOR_SLEW_POSITIVE_VARIABLE_RATE => 6
  | .MOTOR_SLEW_NEGATIVE_VARIABLE_RATE => 7
  | .MOTOR_SLEW_POSITIVE_FIXED_RATE => 36
  | .MOTOR_SLEW_NEGATIVE_FIXED_RATE => 37
  | .GET_DEVICE_VERSION => 254

/-- NexstarCoordinateMode enumeration. -/
inductive NexstarCoordinateMode where
  | RA_DEC
  | AZM_ALT
deriving DecidableEq, Repr

/-- NexstarTrackingMode enumeration. -/
inductive NexstarTrackingMode where
  | OFF
  | ALT_AZ
  | EQ_NORTH
  | EQ_SOUTH
deriving DecidableEq, Repr

/-- Numeric value of a tracking mode. -/
def NexstarTrackingMode.value : NexstarTrackingMode → Nat
  | .OFF => 0
  | .ALT_AZ => 1
  | .EQ_NORTH => 2
  | .EQ_SOUTH => 3

/-- NexstarDeviceId enumeration. -/
inductive NexstarDeviceId where
  | AZM_RA_MOTOR
  | ALT_DEC_MOTOR
  | GPS_DEVICE
  | RTC_DEVICE
deriving DecidableEq, Repr

/-- Numeric value of a device id. -/
def NexstarDeviceId.value : NexstarDeviceId → Nat
  | .AZM_RA_MOTOR => 16
  | .ALT_DEC_MOTOR => 17
  | .GPS_DEVICE => 176
  | .RTC_DEVICE => 178

/-- Python enum member name of a device id (used in error messages). -/
def NexstarDeviceId.pyName : NexstarDeviceId → String
  | .AZM_RA_MOTOR => "AZM_RA_MOTOR"
  | .ALT_DEC_MOTOR => "ALT_DEC_MOTOR"
  | .GPS_DEVICE => "GPS_DEVICE"
  | .RTC_DEVICE => "RTC_DEVICE"

/-- The argument shapes accepted by the recursive request flattener
`_to_bytes`: enum members, ints, strings, bytes objects, and nested
sequences. -/
inductive Arg where
  | cmd (c : NexstarCommand)
  | ptc (p : NexstarPassthroughCommand)
  | dev (d : NexstarDeviceId)
  | tm (t : NexstarTrackingMode)
  | int (n : Int)
  | str (s : String)
  | bytes (bs : List Nat)
  | list (as : List Arg)

/-- Python `bytes([n])`: a single byte, raising ValueError unless
`0 <= n < 256`. -/
def toBytesInt (n : Int) : Except Err (List Nat) :=
  if 0 ≤ n ∧ n < 256 then Except.ok [n.toNat] else Except.error Err.valueError

mutual

/-- `NexstarHandController._to_bytes`: flatten an argument to bytes.  Enum
members contribute their value (command values are one-character ASCII
strings), ints go through `bytes([arg])`, strings are ASCII-encoded, bytes
pass through, and anything else is flattened element-wise. -/
def toBytes : Arg → Except Err (List Nat)
  | Arg.cmd c => Except.ok [c.value]
  | Arg.ptc p => toBytesInt p.value
  | Arg.dev d => toBytesInt d.value
  | Arg.tm t => toBytesInt t.value
  | Arg.int n => toBytesInt n
  | Arg.str s =>
    if s.toList.all (fun c => c.toNat < 128) then
      Except.ok (s.toList.map Char.toNat)
    else Except.error Err.valueError
  | Arg.bytes bs => Except.ok bs
  | Arg.list as => toBytesList as

/-- Flatten a list of arguments, concatenating in order; the first failure
wins (Python raises at the first offending element). -/
def toBytesList : List Arg → Except Err (List Nat)
  | [] => Except.ok []
  | a :: rest =>
    match toBytes a, toBytesList rest with
    | Except.ok b, Except.ok bs => Except.ok (b ++ bs)
    | Except.error e, _ => Except.error e
    | _, Except.error e => Except.error e

end

/-- `NexstarHandController._read_binary`: read exactly `n` bytes from the
stream; fail with a protocol error if fewer arrive, and (when
`checkAndRemoveTrailingHash` is set) require and strip a trailing hash
byte 35. -/
def readBinary (n : Nat) (checkAndRemoveTrailingHash : Bool) (s : List Nat) :
    Except Err (List Nat) :=
  if n = 0 then
    Except.error (Err.usageError
      "read_binary() failed: incorrect value for parameter expected_response_length")
  else
    let response := s.take n
    if response.length ≠ n then
      Except.error (Err.protocolError (ProtocolDetail.badLength response.length n) none)
    else if checkAndRemoveTrailingHash then
      if response.getLast? = some 35 then Except.ok response.dropLast
      else Except.error (Err.protocolError ProtocolDetail.missingHash none)
    else Except.ok response

instance {ε α : Type} [DecidableEq ε] [DecidableEq α] : DecidableEq (Except ε α) :=
  fun a b =>
  match a, b with
  | Except.ok x, Except.ok y =>
    if h : x = y then isTrue (by rw [h]) else isFalse (by intro hc; cases hc; exact h rfl)
  | Except.error x, Except.error y =>
    if h : x = y then isTrue (by rw [h]) else isFalse (by intro hc; cases hc; exact h rfl)
  | Except.ok _, Except.error _ => isFalse (fun h => Except.noConfusion h)
  | Except.error _, Except.ok _ => isFalse (fun h => Except.noConfusion h)

/-- Python `round` on a rational: round half to even.  (`Rat.floor` is the
computable floor on rationals.) -/
def pythonRound (q : ℚ) : ℤ :=
  let f : ℤ := Rat.floor q
  let r : ℚ := q - f
  if r < 1/2 then f
  else if 1/2 < r then f + 1
  else if f % 2 = 0 then f else f + 1

/-- `Rat.floor` agrees with the floor of the ordered field structure. -/
theorem ratFloor_eq_intFloor (q : ℚ) : Rat.floor q = ⌊q⌋ := by
  rw [Rat.floor_def', ← Rat.floor_def]

/-- Rounding an integer returns it unchanged. -/
theorem pythonRound_intCast (k : ℤ) : pythonRound (k : ℚ) = k := by
  unfold pythonRound
  rw [ratFloor_eq_intFloor, Int.floor_intCast]
  simp

example : readBinary 2 true [65, 35] = Except.ok [65] := by decide
example : toBytes (Arg.list [Arg.cmd .ECHO, Arg.int 65]) = Except.ok [75, 65] := by decide

/-- Is a byte an ASCII hex digit (0-9, a-f, A-F)? -/
def isHexDigitByte (b : Nat) : Bool :=
  (48 ≤ b ∧ b ≤ 57) ∨ (97 ≤ b ∧ b ≤ 102) ∨ (65 ≤ b ∧ b ≤ 70)

/-- Numeric value of an ASCII hex digit byte. -/
def hexDigitVal (b : Nat) : Nat :=
  if b ≤ 57 then b - 48 else if b ≤ 70 then b - 55 else b - 87

/-- Digit scanner of Python `int(s, 16)`: hex digits with single underscores
allowed between digits only.  `seen` records whether a digit has been read,
`prevUnd` whether the previous character was an underscore. -/
def pyHexDigits : List Nat → Nat → Bool → Bool → Option Nat
  | [], acc, seen, prevUnd => if seen && !prevUnd then some acc else none
  | b :: rest, acc, seen, prevUnd =>
    if isHexDigitByte b then pyHexDigits rest (acc * 16 + hexDigitVal b) true false
    else if b = 95 then
      if !seen || prevUnd then none else pyHexDigits rest acc seen true
    else none

/-- Is a byte one of the whitespace characters Python `int()` strips? -/
def isPySpace (b : Nat) : Bool :=
  b = 32 ∨ b = 9 ∨ b = 10 ∨ b = 13 ∨ b = 11 ∨ b = 12

/-- Strip the whitespace Python `int()` removes at both ends. -/
def pyStrip (cs : List Nat) : List Nat :=
  ((cs.dropWhile isPySpace).reverse.dropWhile isPySpace).reverse

/-- Sign of the parsed value: a leading minus makes it negative. -/
def pySignOf (cs : List Nat) : Int :=
  if cs.head? = some 45 then -1 else 1

/-- Remove one optional leading sign character. -/
def pyDropSign (cs : List Nat) : List Nat :=
  if cs.head? = some 45 ∨ cs.head? = some 43 then cs.tail else cs

/-- Remove an optional 0x/0X prefix, optionally followed by one underscore. -/
def pyDropHexPrefix (cs : List Nat) : List Nat :=
  if cs.take 2 = [48, 120] ∨ cs.take 2 = [48, 88] then
    if (cs.drop 2).head? = some 95 then cs.drop 3 else cs.drop 2
  else cs

/-- Python `int(s, 16)` on an ASCII byte string: strip whitespace, accept an
optional sign, an optional 0x/0X prefix (optionally followed by one
underscore), then hex digits with underscores between digits. -/
def pyIntHexCore (cs : List Nat) : Option Int :=
  match pyHexDigits (pyDropHexPrefix (pyDropSign (pyStrip cs))) 0 false false with
  | some n => some (pySignOf (pyStrip cs) * n)
  | none => none

/-- `int(s, 16)` as the client sees it: a parse failure is a ValueError. -/
def pyIntHex (cs : List Nat) : Except Err Int :=
  match pyIntHexCore cs with
  | some n => Except.ok n
  | none => Except.error Err.valueError

/-- Python `str.split(sep)` with a one-byte separator, on ASCII bytes:
empty fields are kept, the empty string splits to one empty field. -/
def splitOnByte (sep : Nat) : List Nat → List (List Nat)
  | [] => [[]]
  | b :: rest =>
    if b = sep then [] :: splitOnByte sep rest
    else
      match splitOnByte sep rest with
      | [] => [[b]]
      | h :: t => (b :: h) :: t

/-- Expected response length of `getPosition` (`8+1+8+1` precise,
`4+1+4+1` standard). -/
def posResponseLength (highPrecisionFlag : Bool) : Nat :=
  if highPrecisionFlag then 18 else 10

/-- Fixed-point denominator used by `getPosition` (`0x100000000` precise,
`0x10000` standard). -/
def posDenominator (highPrecisionFlag : Bool) : ℚ :=
  if highPrecisionFlag then 4294967296 else 65536

/-- Response decoding of `getPosition` (lines 176-182): read the framed
response, decode as ASCII (identity on bytes below 128), split on the comma,
require exactly two fields, parse each with `int(field, 16)`, and scale by
`360 / denominator`.  The request write is elided: the decode depends only on
the response stream. -/
def getPositionDecode (highPrecisionFlag : Bool) (s : List Nat) :
    Except Err (ℚ × ℚ) :=
  match readBinary (posResponseLength highPrecisionFlag) true s with
  | Except.error e => Except.error e
  | Except.ok resp =>
    if resp.all (fun b => b < 128) then
      match splitOnByte 44 resp with
      | [r1, r2] =>
        match pyIntHex r1, pyIntHex r2 with
        | Except.ok c1, Except.ok c2 =>
          Except.ok (360 * (c1 : ℚ) / posDenominator highPrecisionFlag,
                     360 * (c2 : ℚ) / posDenominator highPrecisionFlag)
        | Except.error e, _ => Except.error e
        | _, Except.error e => Except.error e
      | fields => Except.error (Err.protocolError (ProtocolDetail.badSplit fields.length) none)
    else Except.error Err.valueError

/-- `setTrackingMode` request bytes.  NOTE: line 244 of the source selects
`NexstarCommand.GET_TRACKING_MODE` (byte 116), not `SET_TRACKING_MODE`. -/
def setTrackingModeRequest (trackingMode : NexstarTrackingMode) : Except Err (List Nat) :=
  toBytes (Arg.list [Arg.cmd NexstarCommand.GET_TRACKING_MODE, Arg.tm trackingMode])

/-- Sign extraction of `setLocation`: non-negative seconds keep sign byte 0,
negative seconds get sign byte 1 and are negated. -/
def signMag (seconds : ℤ) : Nat × Nat :=
  if 0 ≤ seconds then (0, seconds.toNat) else (1, (-seconds).toNat)

/-- `setLocation` request bytes (lines 283-319): round each coordinate to
arc-seconds, split off the sign, reduce the magnitude to
degrees/minutes/seconds (Python `//` and `%` on non-negative ints are plain
natural division), and flatten the nine-element request. -/
def setLocationRequest (latitude longitude : ℚ) : Except Err (List Nat) :=
  let latSM := signMag (pythonRound (latitude * 3600))
  let lonSM := signMag (pythonRound (longitude * 3600))
  let latMag := latSM.2
  let lonMag := lonSM.2
  toBytes (Arg.list
    [Arg.cmd NexstarCommand.SET_LOCATION,
     Arg.int ((latMag / 3600 : ℕ) : ℤ),
     Arg.int ((latMag % 3600 / 60 : ℕ) : ℤ),
     Arg.int ((latMag % 3600 % 60 : ℕ) : ℤ),
     Arg.int ((latSM.1 : ℕ) : ℤ),
     Arg.int ((lonMag / 3600 : ℕ) : ℤ),
     Arg.int ((lonMag % 3600 / 60 : ℕ) : ℤ),
     Arg.int ((lonMag % 3600 % 60 : ℕ) : ℤ),
     Arg.int ((lonSM.1 : ℕ) : ℤ)])

/-- Decoding step of `getLocation` (lines 260-281) on the 8 payload bytes. -/
def getLocationDecode (response : List Nat) : ℚ × ℚ :=
  let latSeconds : ℤ :=
    (response.getD 0 0 : ℤ) * 3600 + (response.getD 1 0 : ℤ) * 60 + (response.getD 2 0 : ℤ)
  let latSeconds := if response.getD 3 0 ≠ 0 then -latSeconds else latSeconds
  let lonSeconds : ℤ :=
    (response.getD 4 0 : ℤ) * 3600 + (response.getD 5 0 : ℤ) * 60 + (response.getD 6 0 : ℤ)
  let lonSeconds := if response.getD 7 0 ≠ 0 then -lonSeconds else lonSeconds
  ((latSeconds : ℚ) / 3600, (lonSeconds : ℚ) / 3600)

/-- `getLocation`: read an 8-byte payload plus terminator and decode it.
The request write is elided. -/
def getLocation (s : List Nat) : Except Err (ℚ × ℚ) :=
  (readBinary 9 true s).map getLocationDecode

/-- Civil timestamp as `setTime` reads it from a Python datetime with a
whole-hour UTC offset; `utcoffsetHours` is the value of
`round(timestamp.utcoffset() / datetime.timedelta(hours=1))`. -/
structure PyDatetime where
  hour : Nat
  minute : Nat
  second : Nat
  month : Nat
  day : Nat
  year : Nat
  utcoffsetHours : ℤ
deriving DecidableEq, Repr

/-- `setTime` (lines 358-377): the field computations succeed, but line 371
spells the command enum `NexStarCommand` (capital S), a name that does not
exist, so evaluating the request list raises a NameError before any byte is
written. -/
def setTime (timestamp : PyDatetime) (dst : Nat) : Except Err (List Nat) :=
  let zone0 : ℤ := timestamp.utcoffsetHours
  let zone : ℤ := if zone0 < 0 then zone0 + 256 else zone0
  let _fields : List Int :=
    [timestamp.hour, timestamp.minute, timestamp.second, timestamp.month,
     timestamp.day, (timestamp.year : ℤ) - 2000, zone, dst]
  Except.error (Err.nameError "NexStarCommand")

/-- One token of a Python format string: literal text, an automatically
numbered plain field, or an automatically numbered zero-padded hex field. -/
inductive FmtTok where
  | lit (bytes : List Nat)
  | fieldAuto
  | fieldHex (width : Nat)

/-- ASCII bytes of the lowercase hex digits of a natural number. -/
def pyHexBytes (n : Nat) : List Nat :=
  (Nat.toDigits 16 n).map Char.toNat

/-- Python `format(v, "0Nx")`: lowercase hex, zero-padded to the given total
width; a negative value carries a leading minus inside the padding. -/
def pyFormatHex (width : Nat) (v : ℤ) : List Nat :=
  if v < 0 then
    let ds := pyHexBytes v.natAbs
    45 :: (List.replicate (width - 1 - ds.length) 48 ++ ds)
  else
    let ds := pyHexBytes v.toNat
    List.replicate (width - ds.length) 48 ++ ds

/-- Python `format(v, "")` on an int: decimal text. -/
def pyFormatAuto (v : ℤ) : List Nat :=
  (toString v).toList.map Char.toNat

/-- Python `str.format` with automatically numbered fields and positional
integer arguments: each field consumes the next argument; a field with no
argument left raises IndexError. -/
def pyFormat : List FmtTok → List Int → Except Err (List Nat)
  | [], _ => Except.ok []
  | FmtTok.lit bs :: rest, args => (pyFormat rest args).map (fun r => bs ++ r)
  | FmtTok.fieldAuto :: _, [] => Except.error Err.indexError
  | FmtTok.fieldAuto :: rest, a :: args => (pyFormat rest args).map (fun r => pyFormatAuto a ++ r)
  | FmtTok.fieldHex _ :: _, [] => Except.error Err.indexError
  | FmtTok.fieldHex w :: rest, a :: args => (pyFormat rest args).map (fun r => pyFormatHex w a ++ r)

/-- `sync` (lines 206-226): scale both coordinates to fixed point, render the
coordinate text with the format string of line 214/219 - which contains three
replacement fields but receives only two arguments - and write the opcode
followed by that text.  The format call raises IndexError, so no bytes are
ever produced. -/
def sync (firstCoordinate secondCoordinate : ℚ) (highPrecisionFlag : Bool) :
    Except Err (List Nat) :=
  let denominator : ℚ := if highPrecisionFlag then 4294967296 else 65536
  let f : ℤ := pythonRound (firstCoordinate / 360 * denominator)
  let s : ℤ := pythonRound (secondCoordinate / 360 * denominator)
  let width : Nat := if highPrecisionFlag then 8 else 4
  let command : NexstarCommand :=
    if highPrecisionFlag then NexstarCommand.SYNC_PRECISE else NexstarCommand.SYNC
  match pyFormat [FmtTok.fieldAuto, FmtTok.fieldHex width, FmtTok.lit [44],
                  FmtTok.fieldHex width] [f, s] with
  | Except.error e => Except.error e
  | Except.ok coordinates => Except.ok (command.value :: coordinates)

/-- `echo` (lines 393-402).  The guard on line 394 is
`not isinstance(c, int) and (0 <= c <= 255)`, which is False for every int,
so no usage check actually happens; the request is flattened (so a byte out
of 0..255 raises ValueError), two response bytes are read, the echoed byte is
compared against the one sent, and on success the method returns None
(modelled as `Option.none`). -/
def echo (c : Nat) (s : List Nat) : Except Err (Option Nat) :=
  match toBytes (Arg.list [Arg.cmd NexstarCommand.ECHO, Arg.int c]) with
  | Except.error e => Except.error e
  | Except.ok _ =>
    match readBinary 2 true s with
    | Except.error e => Except.error e
    | Except.ok resp =>
      let response := resp.getD 0 0
      if response = c then Except.ok none
      else Except.error (Err.protocolError (ProtocolDetail.echoMismatch response) none)

/-- Request-building half of `passthrough` (lines 440-457): validate the
expected response byte count, flatten the sub-command, require 1 to 4
sub-command bytes, and flatten the fixed 8-byte outer frame
`[P, len, deviceId, subCommand, zero padding to 4, expectedResponseBytes]`. -/
def passthroughRequest (deviceId : NexstarDeviceId) (command : Arg)
    (expectedResponseBytes : Int) : Except Err (List Nat) :=
  if expectedResponseBytes < 0 then
    Except.error (Err.usageError
      "passthrough() failed: incorrect value for parameter expected_response_bytes")
  else
    match toBytes command with
    | Except.error e => Except.error e
    | Except.ok commandBytes =>
      if 1 ≤ commandBytes.length ∧ commandBytes.length ≤ 4 then
        toBytes (Arg.list
          [Arg.cmd NexstarCommand.PASSTHROUGH,
           Arg.int commandBytes.length,
           Arg.dev deviceId,
           Arg.bytes commandBytes,
           Arg.bytes (List.replicate (4 - commandBytes.length) 0),
           Arg.int expectedResponseBytes])
      else
        Except.error (Err.usageError
          "expected between 1 and 4 command bytes for passthrough command")

/-- Response half of `passthrough` (lines 459-470): attempt the framed read of
`expectedResponseBytes + 1` bytes; on a protocol error, read one extra byte;
if it is the hash the failure becomes a passthrough error, otherwise a new
protocol error chained to the original one is raised.  Returns the result
together with the bytes left on the stream. -/
def passthroughRead (deviceId : NexstarDeviceId) (expectedResponseBytes : Nat)
    (s : List Nat) : Except Err (List Nat) × List Nat :=
  match readBinary (expectedResponseBytes + 1) true s with
  | Except.ok response => (Except.ok response, s.drop (expectedResponseBytes + 1))
  | Except.error (Err.protocolError detail _) =>
    let s1 := s.drop (expectedResponseBytes + 1)
    let extraHash := s1.take 1
    if extraHash = [35] then
      (Except.error (Err.passthroughError
        ("No valid response from device " ++ deviceId.pyName)), s1.drop 1)
    else
      (Except.error (Err.protocolError ProtocolDetail.extraHashNotFound (some detail)),
       s1.drop 1)
  | Except.error e => (Except.error e, s.drop (expectedResponseBytes + 1))

/-- `slew_variable` (lines 486-502): motors only; the rate in degrees/second
is scaled by 3600*4 and rounded, the sign picks the positive or negative
variable-rate sub-command, the magnitude must fit 0..65535 and is split into
high/low bytes (Python `//` and `%`, floor semantics, modelled by `Int.fdiv`
and `Int.fmod`), and the result is sent as a 3-byte passthrough sub-command
with no response payload.  The function yields the bytes written. -/
def slew_variable (deviceId : NexstarDeviceId) (rate : ℚ) : Except Err (List Nat) :=
  if deviceId = NexstarDeviceId.AZM_RA_MOTOR ∨ deviceId = NexstarDeviceId.ALT_DEC_MOTOR then
    let r0 : ℤ := pythonRound (rate * 3600 * 4)
    let command : NexstarPassthroughCommand :=
      if 0 ≤ r0 then NexstarPassthroughCommand.MOTOR_SLEW_POSITIVE_VARIABLE_RATE
      else NexstarPassthroughCommand.MOTOR_SLEW_NEGATIVE_VARIABLE_RATE
    let r : ℤ := if 0 ≤ r0 then r0 else -r0
    if 0 ≤ r ∧ r ≤ 65535 then
      passthroughRequest deviceId
        (Arg.list [Arg.ptc command, Arg.int (r.fdiv 256), Arg.int (r.fmod 256)]) 0
    else Except.error (Err.usageError "variable rate out of range.")
  else Except.error (Err.usageError "slew command only supported for motors.")

/-- A framed read of `n` bytes from a stream shorter than `n` fails with the
length diagnostic. -/
theorem readBinary_short (n : Nat) (s : List Nat) (h0 : n ≠ 0) (h : s.length < n) :
    readBinary n true s =
      Except.error (Err.protocolError (ProtocolDetail.badLength s.length n) none) := by
  have hlen : (s.take n).length = s.length := by
    rw [List.length_take]; omega
  unfold readBinary
  rw [if_neg h0]
  simp only [hlen]
  rw [if_pos (by omega : s.length ≠ n)]

/-- A framed read of `n = payload.length + 1` bytes from a stream that starts
with `payload` followed by the hash terminator succeeds with `payload`. -/
theorem readBinary_concat (payload rest : List Nat) (n : Nat)
    (h : payload.length + 1 = n) :
    readBinary n true (payload ++ 35 :: rest) = Except.ok payload := by
  subst h
  have htake : (payload ++ 35 :: rest).take (payload.length + 1) = payload ++ [35] := by
    have := @List.take_append Nat payload (35 :: rest) 1
    simpa using this
  unfold readBinary
  rw [if_neg (by omega : ¬ payload.length + 1 = 0)]
  simp [htake, List.getLast?_concat, List.dropLast_concat]

/-- A framed read of `n` bytes from a stream of length at least `n` whose
byte at index `n - 1` is not the hash fails with the missing-terminator
diagnostic. -/
theorem readBinary_noHash (N : Nat) (s : List Nat) (hlen : N + 1 ≤ s.length)
    (hlast : s.getD N 0 ≠ 35) :
    readBinary (N + 1) true s =
      Except.error (Err.protocolError ProtocolDetail.missingHash none) := by
  obtain ⟨a, ha⟩ : ∃ a, s[N]? = some a := by
    have hN : N < s.length := by omega
    exact ⟨s.get ⟨N, hN⟩, List.getElem?_eq_getElem hN⟩
  have htake : s.take (N + 1) = s.take N ++ [a] := by
    rw [List.take_succ, ha]; rfl
  have hlenN : (s.take N).length = N := by
    rw [List.length_take]; omega
  have hane : a ≠ 35 := by
    intro hcontra
    apply hlast
    rw [List.getD_eq_getElem?_getD, ha, hcontra]
    rfl
  unfold readBinary
  rw [if_neg (by omega : ¬ N + 1 = 0)]
  simp [htake, hlenN, List.getLast?_concat, hane]

/-- A framed read of `n` bytes from a stream of length at least `n` whose
byte at index `n - 1` is the hash succeeds with the first `n - 1` bytes. -/
theorem readBinary_hash (N : Nat) (s : List Nat) (hlen : N + 1 ≤ s.length)
    (hlast : s.getD N 0 = 35) :
    readBinary (N + 1) true s = Except.ok (s.take N) := by
  have ha : s[N]? = some 35 := by
    have hN : N < s.length := by omega
    have h1 : s[N]? = some (s.get ⟨N, hN⟩) := List.getElem?_eq_getElem hN
    have h2 : s.getD N 0 = s.get ⟨N, hN⟩ := by
      rw [List.getD_eq_getElem?_getD, h1]; rfl
    rw [h1, ← h2, hlast]
  have htake : s.take (N + 1) = s.take N ++ [35] := by
    rw [List.take_succ, ha]; rfl
  have hlenN : (s.take N).length = N := by
    rw [List.length_take]; omega
  unfold readBinary
  rw [if_neg (by omega : ¬ N + 1 = 0)]
  simp [htake, hlenN, List.getLast?_concat, List.dropLast_concat]

/-- C2: for every response read with expected payload length N, the framer
reads exactly N+1 bytes and raises a protocol error, returning no value, in
exactly two cases - fewer than N+1 bytes arrived (length diagnostic), or the
final byte of the N+1 is not the hash 35 (missing-terminator diagnostic) -
and on success returns the N payload bytes with the terminator stripped. -/
theorem read_binary_framing (N : Nat) (s : List Nat) :
    (s.length < N + 1 →
      readBinary (N + 1) true s =
        Except.error (Err.protocolError (ProtocolDetail.badLength s.length (N + 1)) none))
    ∧ (N + 1 ≤ s.length → s.getD N 0 ≠ 35 →
      readBinary (N + 1) true s =
        Except.error (Err.protocolError ProtocolDetail.missingHash none))
    ∧ (N + 1 ≤ s.length → s.getD N 0 = 35 →
      readBinary (N + 1) true s = Except.ok (s.take N))
    ∧ ProtocolDetail.badLength s.length (N + 1) ≠ ProtocolDetail.missingHash :=
  ⟨fun h => readBinary_short _ _ (by omega) h,
   fun h1 h2 => readBinary_noHash N s h1 h2,
   fun h1 h2 => readBinary_hash N s h1 h2,
   by intro h; cases h⟩

/-- Witness for C2 at concrete inputs: a 2-byte stream read with expected
length 3, a 2-byte stream without terminator, and a well-framed 2-byte
stream. -/
theorem read_binary_framing_witness :
    readBinary 3 true [65, 35] =
      Except.error (Err.protocolError (ProtocolDetail.badLength 2 3) none)
    ∧ readBinary 2 true [65, 66] =
      Except.error (Err.protocolError ProtocolDetail.missingHash none)
    ∧ readBinary 2 true [65, 35] = Except.ok [65] :=
  ⟨(read_binary_framing 2 [65, 35]).1 (by decide),
   (read_binary_framing 1 [65, 66]).2.1 (by decide) (by decide),
   (read_binary_framing 1 [65, 35]).2.2.1 (by decide) (by decide)⟩

/-- C1: when the initial passthrough read of expected+1 bytes fails the
framing contract, exactly one more byte is read (the stream is left at
position expected+2); if that byte is the hash the outcome is a passthrough
error, otherwise a protocol error chained to the original failure.  The two
outcomes are distinct constructors of `Err`. -/
theorem passthrough_recovery (d : NexstarDeviceId) (expected : Nat) (s : List Nat)
    (det : ProtocolDetail) (c : Option ProtocolDetail)
    (h : readBinary (expected + 1) true s = Except.error (Err.protocolError det c)) :
    (passthroughRead d expected s).2 = s.drop (expected + 2)
    ∧ ((s.drop (expected + 1)).take 1 = [35] →
        (passthroughRead d expected s).1 =
          Except.error (Err.passthroughError ("No valid response from device " ++ d.pyName)))
    ∧ ((s.drop (expected + 1)).take 1 ≠ [35] →
        (passthroughRead d expected s).1 =
          Except.error (Err.protocolError ProtocolDetail.extraHashNotFound (some det))) := by
  have hdrop : (s.drop (expected + 1)).drop 1 = s.drop (expected + 2) := by
    rw [List.drop_drop]
  unfold passthroughRead
  rw [h]
  by_cases hx : (s.drop (expected + 1)).take 1 = [35]
  · simp [hx, hdrop]
  · simp [hx, hdrop]

/-- Witness for C1: expecting 0 payload bytes, the stream delivers a stray
byte then a hash; the initial framed read fails, recovery consumes the hash
and the outcome is the passthrough error with an aligned (empty) stream. -/
theorem passthrough_recovery_witness :
    (passthroughRead NexstarDeviceId.GPS_DEVICE 0 [65, 35]).1 =
      Except.error (Err.passthroughError "No valid response from device GPS_DEVICE")
    ∧ (passthroughRead NexstarDeviceId.GPS_DEVICE 0 [65, 35]).2 = [] := by
  have h := passthrough_recovery NexstarDeviceId.GPS_DEVICE 0 [65, 35]
      ProtocolDetail.missingHash none (by decide)
  exact ⟨(h.2.1 (by decide)).trans (by decide), h.1.trans (by decide)⟩

/-- C4 (code bug): `setTrackingMode` writes the GET_TRACKING_MODE opcode
byte 116 followed by the mode byte, while the SET_TRACKING_MODE opcode the
spec mandates is byte 84; the two differ.  Evaluated at tracking mode OFF. -/
theorem set_tracking_mode_bug :
    setTrackingModeRequest NexstarTrackingMode.OFF = Except.ok [116, 0]
    ∧ NexstarCommand.value NexstarCommand.SET_TRACKING_MODE = 84
    ∧ (116 : Nat) ≠ 84 := by
  refine ⟨by decide, rfl, by decide⟩

/-- C5 (code bug): `sync` never writes the opcode-plus-coordinates request;
the coordinate format string contains three replacement fields but receives
two arguments, so the call raises IndexError.  Evaluated at coordinates
(180, 90) in high precision. -/
theorem sync_format_bug :
    sync 180 90 true = Except.error Err.indexError := rfl

/-- C6 (code bug): `setTime` never writes the nine-byte request; line 371
references the undefined name NexStarCommand, raising NameError before any
write.  Evaluated at 2026-10-12 12:00:00 with a +2 hour offset and dst=1. -/
theorem set_time_name_bug :
    setTime (PyDatetime.mk 12 0 0 10 12 2026 2) 1 =
      Except.error (Err.nameError "NexStarCommand") := rfl

/-- Every device id byte fits in one byte. -/
theorem deviceId_value_lt (d : NexstarDeviceId) : d.value < 256 := by
  cases d <;> decide

/-- C3 counterexample: with the valid device id GPS_DEVICE, the one-byte
sub-command 254 and the non-negative expected response byte count 256, the
passthrough encoder raises ValueError (from `bytes([256])`) instead of
writing an 8-byte frame. -/
theorem passthrough_expected_256_counterexample :
    passthroughRequest NexstarDeviceId.GPS_DEVICE (Arg.bytes [254]) 256 =
      Except.error Err.valueError := by decide

/-- C3 (amended): for every device id, sub-command byte string and expected
response byte count in 0..255, the passthrough request is exactly the 8-byte
frame [P, length, deviceId, sub-command zero-padded to 4, expected count]
when the sub-command length is 1..4, and a usage error is raised (before any
writing) otherwise. -/
theorem passthrough_frame_spec (d : NexstarDeviceId) (bs : List Nat) (expected : ℤ)
    (h0 : 0 ≤ expected) (h1 : expected < 256) :
    ((1 ≤ bs.length ∧ bs.length ≤ 4) →
      passthroughRequest d (Arg.bytes bs) expected =
        Except.ok ([80, bs.length, d.value] ++ bs ++
          List.replicate (4 - bs.length) 0 ++ [expected.toNat])
      ∧ ([80, bs.length, d.value] ++ bs ++
          List.replicate (4 - bs.length) 0 ++ [expected.toNat]).length = 8)
    ∧ (¬(1 ≤ bs.length ∧ bs.length ≤ 4) →
      passthroughRequest d (Arg.bytes bs) expected =
        Except.error (Err.usageError
          "expected between 1 and 4 command bytes for passthrough command")) := by
  constructor
  · intro hlen
    have hdev : toBytesInt (d.value : ℤ) = Except.ok [d.value] := by
      have := deviceId_value_lt d
      simp [toBytesInt]
      omega
    have hlenB : toBytesInt (bs.length : ℤ) = Except.ok [bs.length] := by
      simp [toBytesInt]
      omega
    have hexp : toBytesInt expected = Except.ok [expected.toNat] := by
      simp [toBytesInt]
      omega
    constructor
    · unfold passthroughRequest
      rw [if_neg (by omega : ¬ expected < 0)]
      simp only [toBytes, toBytesList, hdev, hlenB, hexp]
      rw [if_pos hlen]
      simp [toBytes, toBytesList, hdev, hlenB, hexp, NexstarCommand.value]
    · simp [List.length_replicate]
      omega
  · intro hlen
    unfold passthroughRequest
    rw [if_neg (by omega : ¬ expected < 0)]
    simp only [toBytes]
    rw [if_neg hlen]

/-- Witness for C3 at concrete inputs: sub-command [254] with expected count
2 yields the 8-byte frame; an empty sub-command is rejected. -/
theorem passthrough_frame_spec_witness :
    passthroughRequest NexstarDeviceId.AZM_RA_MOTOR (Arg.bytes [254]) 2 =
      Except.ok [80, 1, 16, 254, 0, 0, 0, 2]
    ∧ passthroughRequest NexstarDeviceId.AZM_RA_MOTOR (Arg.bytes []) 2 =
      Except.error (Err.usageError
        "expected between 1 and 4 command bytes for passthrough command") := by
  have h := passthrough_frame_spec NexstarDeviceId.AZM_RA_MOTOR [254] 2
    (by decide) (by decide)
  have h2 := passthrough_frame_spec NexstarDeviceId.AZM_RA_MOTOR [] 2
    (by decide) (by decide)
  exact ⟨((h.1 (by decide)).1).trans (by decide), h2.2 (by decide)⟩

/-- C10 counterexample: over a healthy link (the device echoes byte 65
followed by the hash), `echo(65)` evaluates to Python None, not to the
byte 65. -/
theorem echo_returns_none_counterexample :
    echo 65 [65, 35] = Except.ok Option.none
    ∧ (Except.ok Option.none : Except Err (Option Nat)) ≠ Except.ok (some 65) :=
  ⟨by decide, by decide⟩

/-- C10 (amended): for every byte value c, when the device answers with one
byte r and the terminator, `echo(c)` returns None if r equals c and raises a
protocol error (not a usage error) carrying r otherwise. -/
theorem echo_spec (c r : Nat) (hc : c ≤ 255) :
    echo c [r, 35] =
      if r = c then Except.ok none
      else Except.error (Err.protocolError (ProtocolDetail.echoMismatch r) none) := by
  have hread : readBinary 2 true [r, 35] = Except.ok [r] := readBinary_concat [r] [] 2 rfl
  have hcond : (0 : ℤ) ≤ (c : ℤ) ∧ ((c : ℤ)) < 256 := by omega
  have hint : toBytesInt (c : ℤ) = Except.ok [c] := by
    unfold toBytesInt
    rw [if_pos hcond]
    simp
  unfold echo
  simp only [toBytes, toBytesList, hint, hread]
  by_cases hrc : r = c
  · simp [hrc]
  · simp [hrc]

/-- Witness for C10: a mismatching echo byte (66 back for 65 sent) raises the
protocol error carrying the received byte. -/
theorem echo_spec_witness :
    echo 65 [66, 35] =
      Except.error (Err.protocolError (ProtocolDetail.echoMismatch 66) none) := by
  have h := echo_spec 65 66 (by decide)
  simpa using h

/-- Every passthrough sub-command byte fits in one byte. -/
theorem ptcValue_lt (p : NexstarPassthroughCommand) : p.value < 256 := by
  cases p <;> decide

/-- A three-byte motor sub-command [p, b, c] with single-byte operands
encodes to the 8-byte passthrough frame with one zero padding byte and a
zero expected response count. -/
theorem passthroughRequest_slew (d : NexstarDeviceId) (p : NexstarPassthroughCommand)
    (b c : Nat) (hb : b < 256) (hc : c < 256) :
    passthroughRequest d (Arg.list [Arg.ptc p, Arg.int (b : ℤ), Arg.int (c : ℤ)]) 0 =
      Except.ok [80, 3, d.value, p.value, b, c, 0, 0] := by
  have hp : toBytesInt (p.value : ℤ) = Except.ok [p.value] := by
    have := ptcValue_lt p
    simp [toBytesInt]
    omega
  have hbv : toBytesInt (b : ℤ) = Except.ok [b] := by
    simp [toBytesInt]
    omega
  have hcv : toBytesInt (c : ℤ) = Except.ok [c] := by
    simp [toBytesInt]
    omega
  have hdev : toBytesInt (d.value : ℤ) = Except.ok [d.value] := by
    have := deviceId_value_lt d
    simp [toBytesInt]
    omega
  unfold passthroughRequest
  rw [if_neg (by omega : ¬ (0 : ℤ) < 0)]
  simp [toBytes, toBytesList, toBytesInt, NexstarCommand.value,
    ptcValue_lt p, deviceId_value_lt d, hb, hc]

/-- C7: for every motor device and rate, slew_variable rounds rate*3600*4,
picks sub-command 6 for a non-negative and 7 for a negative rounded value,
sends the 3-byte body [subCommand, magnitude/256, magnitude%256] inside the
passthrough frame when the magnitude fits 0..65535, and raises a usage error
with nothing written when the magnitude overflows or the device is not a
motor.  In particular slew_variable(AZM_RA_MOTOR, -0.1) sends body bytes
[7, 5, 160]. -/
theorem slew_variable_spec (d : NexstarDeviceId) (rate : ℚ) (m : ℤ)
    (hm : pythonRound (rate * 3600 * 4) = m) :
    ((d = NexstarDeviceId.AZM_RA_MOTOR ∨ d = NexstarDeviceId.ALT_DEC_MOTOR) →
      (m.natAbs ≤ 65535 →
        slew_variable d rate =
          Except.ok [80, 3, d.value, if 0 ≤ m then 6 else 7,
                     m.natAbs / 256, m.natAbs % 256, 0, 0])
      ∧ (65535 < m.natAbs →
        slew_variable d rate =
          Except.error (Err.usageError "variable rate out of range.")))
    ∧ (¬(d = NexstarDeviceId.AZM_RA_MOTOR ∨ d = NexstarDeviceId.ALT_DEC_MOTOR) →
      slew_variable d rate =
        Except.error (Err.usageError "slew command only supported for motors."))
    ∧ slew_variable NexstarDeviceId.AZM_RA_MOTOR ((-1 : ℚ)/10) =
        Except.ok [80, 3, 16, 7, 5, 160, 0, 0] := by
  refine ⟨?_, ?_, ?_⟩
  · intro hd
    unfold slew_variable
    rw [if_pos hd]
    simp only [hm]
    constructor
    · intro hk
      split_ifs with h1 h2 h2
      · obtain ⟨k, rfl⟩ := Int.eq_ofNat_of_zero_le h1
        rw [show (k : ℤ).fdiv (256 : ℤ) = ((k / 256 : ℕ) : ℤ) from
              by exact_mod_cast (Int.ofNat_fdiv k 256).symm,
            show (k : ℤ).fmod (256 : ℤ) = ((k % 256 : ℕ) : ℤ) from
              by exact_mod_cast (Int.ofNat_fmod k 256).symm]
        have hfr := passthroughRequest_slew d
          NexstarPassthroughCommand.MOTOR_SLEW_POSITIVE_VARIABLE_RATE
          (k / 256) (k % 256) (by omega) (by omega)
        simp only [NexstarPassthroughCommand.value] at hfr
        rw [hfr]
        simp [h1]
      · exfalso; omega
      · obtain ⟨k, rfl⟩ : ∃ k : Nat, m = -(k : ℤ) := ⟨m.natAbs, by omega⟩
        simp only [neg_neg] at h2 ⊢
        rw [show (k : ℤ).fdiv (256 : ℤ) = ((k / 256 : ℕ) : ℤ) from
              by exact_mod_cast (Int.ofNat_fdiv k 256).symm,
            show (k : ℤ).fmod (256 : ℤ) = ((k % 256 : ℕ) : ℤ) from
              by exact_mod_cast (Int.ofNat_fmod k 256).symm]
        have hfr := passthroughRequest_slew d
          NexstarPassthroughCommand.MOTOR_SLEW_NEGATIVE_VARIABLE_RATE
          (k / 256) (k % 256) (by omega) (by omega)
        simp only [NexstarPassthroughCommand.value] at hfr
        rw [hfr]
        have hnat : (-(k : ℤ)).natAbs = k := by omega
        simp [h1, hnat]
      · exfalso; omega
    · intro hk
      split_ifs with h1 h2 h2
      · exfalso; omega
      · rfl
      · exfalso; omega
      · rfl
  · intro hd
    unfold slew_variable
    rw [if_neg hd]
  · have hpr : pythonRound ((-1 : ℚ)/10 * 3600 * 4) = -1440 := by
      rw [show ((-1 : ℚ)/10 * 3600 * 4) = ((-1440 : ℤ) : ℚ) by norm_num,
        pythonRound_intCast]
    unfold slew_variable
    rw [hpr]
    decide

/-- Witness for C7: the spec example slew_variable(AZM_RA_MOTOR, -0.1)
yields the frame carrying body [7, 5, 160], and a non-motor device is
rejected. -/
theorem slew_variable_spec_witness :
    slew_variable NexstarDeviceId.AZM_RA_MOTOR ((-1 : ℚ)/10) =
      Except.ok [80, 3, 16, 7, 5, 160, 0, 0]
    ∧ slew_variable NexstarDeviceId.GPS_DEVICE ((-1 : ℚ)/10) =
      Except.error (Err.usageError "slew command only supported for motors.") := by
  have h := slew_variable_spec NexstarDeviceId.AZM_RA_MOTOR ((-1 : ℚ)/10) (-1440)
    (by rw [show ((-1 : ℚ)/10 * 3600 * 4) = ((-1440 : ℤ) : ℚ) by norm_num,
      pythonRound_intCast])
  have h2 := slew_variable_spec NexstarDeviceId.GPS_DEVICE ((-1 : ℚ)/10) (-1440)
    (by rw [show ((-1 : ℚ)/10 * 3600 * 4) = ((-1440 : ℤ) : ℚ) by norm_num,
      pythonRound_intCast])
  exact ⟨h.2.2, h2.2.1 (by decide)⟩

/-- A natural number below 256 flattens to its single byte. -/
theorem toBytesInt_natCast_ok (x : Nat) (hx : x < 256) :
    toBytesInt (x : ℤ) = Except.ok [x] := by
  unfold toBytesInt
  rw [if_pos ⟨by positivity, by exact_mod_cast hx⟩]
  simp

/-- A natural number of 256 or more makes `bytes([x])` raise ValueError. -/
theorem toBytesInt_natCast_err (x : Nat) (hx : 256 ≤ x) :
    toBytesInt (x : ℤ) = Except.error Err.valueError := by
  unfold toBytesInt
  rw [if_neg (by push_neg; intro; exact_mod_cast hx)]

/-- C9: for every latitude and longitude that are integral numbers of
arc-seconds, when the sign-plus-DMS encoding of `setLocation` produces its
request bytes, decoding the eight payload bytes with the decoding of
`getLocation` returns the original values exactly. -/
theorem set_get_location_roundtrip (klat klon : ℤ) (bs : List Nat)
    (h : setLocationRequest ((klat : ℚ) / 3600) ((klon : ℚ) / 3600) = Except.ok bs) :
    getLocation (bs.drop 1 ++ [35]) = Except.ok ((klat : ℚ) / 3600, (klon : ℚ) / 3600) := by
  have hlat : pythonRound ((klat : ℚ) / 3600 * 3600) = klat := by
    rw [show ((klat : ℚ) / 3600 * 3600) = (klat : ℚ) by field_simp, pythonRound_intCast]
  have hlon : pythonRound ((klon : ℚ) / 3600 * 3600) = klon := by
    rw [show ((klon : ℚ) / 3600 * 3600) = (klon : ℚ) by field_simp, pythonRound_intCast]
  unfold setLocationRequest at h
  rw [hlat, hlon] at h
  set a := (signMag klat).2 with ha
  set b := (signMag klon).2 with hb
  by_cases hda : a / 3600 < 256
  case neg =>
    exfalso
    simp only [toBytes, toBytesList, toBytesInt_natCast_err (a / 3600) (by omega)] at h
    exact Except.noConfusion h
  by_cases hdb : b / 3600 < 256
  case neg =>
    exfalso
    simp only [toBytes, toBytesList, toBytesInt_natCast_ok (a / 3600) hda,
      toBytesInt_natCast_ok (a % 3600 / 60) (by omega),
      toBytesInt_natCast_ok (a % 3600 % 60) (by omega),
      toBytesInt_natCast_ok (signMag klat).1 (by unfold signMag; split <;> simp),
      toBytesInt_natCast_err (b / 3600) (by omega)] at h
    exact Except.noConfusion h
  simp only [toBytes, toBytesList, toBytesInt_natCast_ok (a / 3600) hda,
    toBytesInt_natCast_ok (a % 3600 / 60) (by omega),
    toBytesInt_natCast_ok (a % 3600 % 60) (by omega),
    toBytesInt_natCast_ok (signMag klat).1 (by unfold signMag; split <;> simp),
    toBytesInt_natCast_ok (b / 3600) hdb,
    toBytesInt_natCast_ok (b % 3600 / 60) (by omega),
    toBytesInt_natCast_ok (b % 3600 % 60) (by omega),
    toBytesInt_natCast_ok (signMag klon).1 (by unfold signMag; split <;> simp),
    NexstarCommand.value] at h
  simp only [List.cons_append, List.nil_append] at h
  obtain rfl : bs = 87 :: [a / 3600, a % 3600 / 60, a % 3600 % 60, (signMag klat).1,
      b / 3600, b % 3600 / 60, b % 3600 % 60, (signMag klon).1] := by
    cases h
    rfl
  unfold getLocation
  rw [readBinary_concat _ [] 9 (by simp)]
  simp only [Except.map]
  unfold getLocationDecode
  simp only [List.drop_succ_cons, List.drop_zero, List.getD_cons_zero, List.getD_cons_succ]
  have hlatZ : ((a / 3600 : ℕ) : ℤ) * 3600 + ((a % 3600 / 60 : ℕ) : ℤ) * 60 +
      ((a % 3600 % 60 : ℕ) : ℤ) = (a : ℤ) := by
    push_cast
    omega
  have hlonZ : ((b / 3600 : ℕ) : ℤ) * 3600 + ((b % 3600 / 60 : ℕ) : ℤ) * 60 +
      ((b % 3600 % 60 : ℕ) : ℤ) = (b : ℤ) := by
    push_cast
    omega
  rw [hlatZ, hlonZ]
  have hlat2 : (if (signMag klat).1 ≠ 0 then -(a : ℤ) else (a : ℤ)) = klat := by
    rw [ha]
    unfold signMag
    by_cases hk : 0 ≤ klat
    · rw [if_pos hk]
      simp
      omega
    · rw [if_neg hk]
      simp
      omega
  have hlon2 : (if (signMag klon).1 ≠ 0 then -(b : ℤ) else (b : ℤ)) = klon := by
    rw [hb]
    unfold signMag
    by_cases hk : 0 ≤ klon
    · rw [if_pos hk]
      simp
      omega
    · rw [if_neg hk]
      simp
      omega
  rw [hlat2, hlon2]

/-- Witness for C9 at the spec example: 52.5 equals 189000 arc-seconds and
-4.5 equals -16200 arc-seconds; the encoded payload decodes back to exactly
(52.5, -4.5). -/
theorem set_get_location_roundtrip_witness :
    getLocation [52, 30, 0, 0, 4, 30, 0, 1, 35] =
      Except.ok (((189000 : ℤ) : ℚ) / 3600, ((-16200 : ℤ) : ℚ) / 3600)
    ∧ ((189000 : ℤ) : ℚ) / 3600 = 105 / 2
    ∧ ((-16200 : ℤ) : ℚ) / 3600 = -9 / 2 := by
  have e1 : pythonRound ((((189000 : ℤ) : ℚ) / 3600) * 3600) = (189000 : ℤ) := by
    rw [show ((((189000 : ℤ) : ℚ) / 3600) * 3600) = ((189000 : ℤ) : ℚ) by norm_num,
      pythonRound_intCast]
  have e2 : pythonRound ((((-16200 : ℤ) : ℚ) / 3600) * 3600) = (-16200 : ℤ) := by
    rw [show ((((-16200 : ℤ) : ℚ) / 3600) * 3600) = ((-16200 : ℤ) : ℚ) by norm_num,
      pythonRound_intCast]
  have henc : setLocationRequest (((189000 : ℤ) : ℚ) / 3600) (((-16200 : ℤ) : ℚ) / 3600) =
      Except.ok [87, 52, 30, 0, 0, 4, 30, 0, 1] := by
    unfold setLocationRequest
    rw [e1, e2]
    decide
  have h := set_get_location_roundtrip 189000 (-16200) _ henc
  exact ⟨h, by norm_num, by norm_num⟩

/-- A hex digit byte is not one of the whitespace bytes. -/
theorem isHexDigitByte_not_space {b : Nat} (h : isHexDigitByte b = true) :
    isPySpace b = false := by
  simp [isHexDigitByte] at h
  simp [isPySpace]
  omega

/-- A hex digit byte is none of minus, plus, comma or underscore. -/
theorem isHexDigitByte_not_special {b : Nat} (h : isHexDigitByte b = true) :
    b ≠ 45 ∧ b ≠ 43 ∧ b ≠ 44 ∧ b ≠ 95 := by
  simp [isHexDigitByte] at h
  omega

/-- The value of a hex digit byte is below 16. -/
theorem hexDigitVal_lt {b : Nat} (h : isHexDigitByte b = true) :
    hexDigitVal b < 16 := by
  simp [isHexDigitByte] at h
  unfold hexDigitVal
  split_ifs <;> omega

/-- Scanning a non-empty all-hex-digit byte list succeeds from any scanner
state and yields a value below `(acc+1) * 16 ^ length`. -/
theorem pyHexDigits_all (bs : List Nat) (hall : ∀ x ∈ bs, isHexDigitByte x = true) :
    ∀ (acc : Nat) (s p : Bool), bs ≠ [] →
      ∃ v : Nat, pyHexDigits bs acc s p = some v ∧ v < (acc + 1) * 16 ^ bs.length := by
  induction bs with
  | nil => intro _ _ _ hne; exact absurd rfl hne
  | cons b t ih =>
    intro acc s p _
    have hb : isHexDigitByte b = true := hall b (by simp)
    have hv : hexDigitVal b < 16 := hexDigitVal_lt hb
    by_cases ht : t = []
    · subst ht
      refine ⟨acc * 16 + hexDigitVal b, ?_, ?_⟩
      · simp [pyHexDigits, hb]
      · simp only [List.length_singleton, pow_one]
        omega
    · obtain ⟨v, hv1, hv2⟩ :=
        ih (fun x hx => hall x (List.mem_cons_of_mem b hx)) (acc * 16 + hexDigitVal b)
          true false ht
      refine ⟨v, ?_, ?_⟩
      · simp only [pyHexDigits, hb]
        simpa using hv1
      · have hstep : (acc * 16 + hexDigitVal b + 1) * 16 ^ t.length ≤
            (acc + 1) * 16 ^ (t.length + 1) := by
          have h16 : (16 : Nat) ^ (t.length + 1) = 16 ^ t.length * 16 := by ring
          rw [h16]
          calc (acc * 16 + hexDigitVal b + 1) * 16 ^ t.length
              ≤ ((acc + 1) * 16) * 16 ^ t.length := by
                apply Nat.mul_le_mul_right
                omega
            _ = (acc + 1) * (16 ^ t.length * 16) := by ring
        calc v < (acc * 16 + hexDigitVal b + 1) * 16 ^ t.length := hv2
          _ ≤ (acc + 1) * 16 ^ (t.length + 1) := hstep
          _ = (acc + 1) * 16 ^ (b :: t).length := by simp

/-- Parsing a non-empty string of plain hex digits with the Python int
parser succeeds with a non-negative value below `16 ^ length`. -/
theorem pyIntHex_plain (bs : List Nat) (hne : bs ≠ [])
    (hall : ∀ x ∈ bs, isHexDigitByte x = true) :
    ∃ v : Nat, pyIntHex bs = Except.ok ((v : ℕ) : ℤ) ∧ v < 16 ^ bs.length := by
  obtain ⟨b, t, rfl⟩ := List.exists_cons_of_ne_nil hne
  have hb : isHexDigitByte b = true := hall b (by simp)
  have h1 : (b :: t).dropWhile isPySpace = b :: t := by
    rw [List.dropWhile_cons, isHexDigitByte_not_space hb]
    simp
  obtain ⟨l2, b2, hconcat⟩ := (List.eq_nil_or_concat (b :: t)).resolve_left (by simp)
  rw [List.concat_eq_append] at hconcat
  have hb2 : isHexDigitByte b2 = true := by
    apply hall
    rw [hconcat]
    exact List.mem_append_right _ (by simp)
  have h2 : (((b :: t).reverse).dropWhile isPySpace).reverse = b :: t := by
    rw [hconcat, List.reverse_concat, List.dropWhile_cons, isHexDigitByte_not_space hb2]
    simp
  have hhead : (b :: t).head? = some b := rfl
  have hb455 := isHexDigitByte_not_special hb
  have hsign : ¬((b :: t).head? = some 45 ∨ (b :: t).head? = some 43) := by
    rw [hhead]
    simp
    omega
  have hpre : ¬((b :: t).take 2 = [48, 120] ∨ (b :: t).take 2 = [48, 88]) := by
    intro hcon
    match t, hcon with
    | [], Or.inl hc => simp at hc
    | [], Or.inr hc => simp at hc
    | x :: t2, Or.inl hc =>
      simp at hc
      have hx : isHexDigitByte x = true := hall x (by simp)
      rw [hc.2] at hx
      simp [isHexDigitByte] at hx
    | x :: t2, Or.inr hc =>
      simp at hc
      have hx : isHexDigitByte x = true := hall x (by simp)
      rw [hc.2] at hx
      simp [isHexDigitByte] at hx
  obtain ⟨v, hv1, hv2⟩ := pyHexDigits_all (b :: t) hall 0 false false (by simp)
  refine ⟨v, ?_, by simpa using hv2⟩
  unfold pyIntHex pyIntHexCore pyStrip pySignOf pyDropSign pyDropHexPrefix
  rw [h1, h2]
  rw [if_neg hsign]
  rw [if_neg hpre]
  rw [hv1]
  simp [hhead, hb455.1]

/-- Splitting a list without the separator yields the single whole field. -/
theorem splitOnByte_no_sep (sep : Nat) (l : List Nat) (h : sep ∉ l) :
    splitOnByte sep l = [l] := by
  induction l with
  | nil => rfl
  | cons b t ih =>
    have hb : b ≠ sep := by
      intro hc
      exact h (by rw [hc]; simp)
    have ht : sep ∉ t := fun hc => h (List.mem_cons_of_mem b hc)
    simp only [splitOnByte, ih ht]
    rw [if_neg hb]

/-- Splitting at the first separator occurrence peels off the first field. -/
theorem splitOnByte_append (sep : Nat) (l1 l2 : List Nat) (h : sep ∉ l1) :
    splitOnByte sep (l1 ++ sep :: l2) = l1 :: splitOnByte sep l2 := by
  induction l1 with
  | nil =>
    simp [splitOnByte]
  | cons b t ih =>
    have hb : b ≠ sep := by
      intro hc
      exact h (by rw [hc]; simp)
    have ht : sep ∉ t := fun hc => h (List.mem_cons_of_mem b hc)
    simp only [List.cons_append, splitOnByte, List.append_eq, ih ht]
    rw [if_neg hb]

/-- A fixed-point code within the precision denominator scales to an angle
in [0, 360). -/
theorem posScale_bound (hp : Bool) (c : ℤ) (h0 : 0 ≤ c)
    (h1 : c < if hp then 4294967296 else 65536) :
    0 ≤ 360 * (c : ℚ) / posDenominator hp ∧ 360 * (c : ℚ) / posDenominator hp < 360 := by
  have hc0 : (0 : ℚ) ≤ (c : ℚ) := by exact_mod_cast h0
  cases hp
  · have hcb : (c : ℚ) < 65536 := by
      simp at h1
      exact_mod_cast h1
    constructor
    · apply div_nonneg (by nlinarith)
      norm_num [posDenominator]
    · rw [show posDenominator false = 65536 from rfl, div_lt_iff₀ (by norm_num)]
      nlinarith
  · have hcb : (c : ℚ) < 4294967296 := by
      simp at h1
      exact_mod_cast h1
    constructor
    · apply div_nonneg (by nlinarith)
      norm_num [posDenominator]
    · rw [show posDenominator true = 4294967296 from rfl, div_lt_iff₀ (by norm_num)]
      nlinarith

/-- C8 (amended): a getPosition response payload made of two comma-free
ASCII fields accepted by the Python int parser decodes to
(360*c1/denominator, 360*c2/denominator) where c1 and c2 are the parsed
field values; when both fields are plain hex digit strings of at most the
nominal width (8 digits precise, 4 standard), both angles lie in [0, 360). -/
theorem get_position_decode_spec (hp : Bool) (b1 b2 : List Nat) (c1 c2 : ℤ)
    (hlen : b1.length + 1 + b2.length = if hp then 17 else 9)
    (h128a : ∀ x ∈ b1, x < 128) (h128b : ∀ x ∈ b2, x < 128)
    (hna : 44 ∉ b1) (hnb : 44 ∉ b2)
    (hpa : pyIntHex b1 = Except.ok c1) (hpb : pyIntHex b2 = Except.ok c2) :
    getPositionDecode hp (b1 ++ 44 :: (b2 ++ [35])) =
      Except.ok (360 * (c1 : ℚ) / posDenominator hp, 360 * (c2 : ℚ) / posDenominator hp)
    ∧ ((b1 ≠ [] ∧ (∀ x ∈ b1, isHexDigitByte x = true) ∧ b1.length ≤ (if hp then 8 else 4)
        ∧ b2 ≠ [] ∧ (∀ x ∈ b2, isHexDigitByte x = true) ∧ b2.length ≤ (if hp then 8 else 4)) →
       0 ≤ 360 * (c1 : ℚ) / posDenominator hp ∧ 360 * (c1 : ℚ) / posDenominator hp < 360
       ∧ 0 ≤ 360 * (c2 : ℚ) / posDenominator hp ∧ 360 * (c2 : ℚ) / posDenominator hp < 360) := by
  constructor
  · have hread : readBinary (posResponseLength hp) true (b1 ++ 44 :: (b2 ++ [35])) =
        Except.ok (b1 ++ 44 :: b2) := by
      rw [show b1 ++ 44 :: (b2 ++ [35]) = (b1 ++ 44 :: b2) ++ 35 :: [] by simp]
      apply readBinary_concat
      unfold posResponseLength
      cases hp
      all_goals
        simp at hlen ⊢
        omega
    have hall : (b1 ++ 44 :: b2).all (fun x => x < 128) = true := by
      rw [List.all_eq_true]
      intro x hx
      simp only [decide_eq_true_eq]
      rcases List.mem_append.mp hx with hmem | hmem
      · exact h128a x hmem
      · rcases List.mem_cons.mp hmem with hmem | hmem
        · omega
        · exact h128b x hmem
    unfold getPositionDecode
    simp only [hread]
    rw [if_pos hall]
    simp only [splitOnByte_append 44 b1 b2 hna, splitOnByte_no_sep 44 b2 hnb]
    simp only [hpa, hpb]
  · rintro ⟨hne1, hhex1, hlen1, hne2, hhex2, hlen2⟩
    obtain ⟨v1, he1, hbnd1⟩ := pyIntHex_plain b1 hne1 hhex1
    obtain ⟨v2, he2, hbnd2⟩ := pyIntHex_plain b2 hne2 hhex2
    rw [hpa] at he1
    rw [hpb] at he2
    obtain rfl : c1 = ((v1 : ℕ) : ℤ) := Except.ok.inj he1
    obtain rfl : c2 = ((v2 : ℕ) : ℤ) := Except.ok.inj he2
    have hv1 : ((v1 : ℕ) : ℤ) < if hp then 4294967296 else 65536 := by
      cases hp
      · simp at hlen1 ⊢
        have hn : v1 < 65536 := lt_of_lt_of_le hbnd1
          (le_trans (Nat.pow_le_pow_right (by norm_num) hlen1) (by norm_num))
        exact_mod_cast hn
      · simp at hlen1 ⊢
        have hn : v1 < 4294967296 := lt_of_lt_of_le hbnd1
          (le_trans (Nat.pow_le_pow_right (by norm_num) hlen1) (by norm_num))
        exact_mod_cast hn
    have hv2 : ((v2 : ℕ) : ℤ) < if hp then 4294967296 else 65536 := by
      cases hp
      · simp at hlen2 ⊢
        have hn : v2 < 65536 := lt_of_lt_of_le hbnd2
          (le_trans (Nat.pow_le_pow_right (by norm_num) hlen2) (by norm_num))
        exact_mod_cast hn
      · simp at hlen2 ⊢
        have hn : v2 < 4294967296 := lt_of_lt_of_le hbnd2
          (le_trans (Nat.pow_le_pow_right (by norm_num) hlen2) (by norm_num))
        exact_mod_cast hn
    obtain ⟨g1, g2⟩ := posScale_bound hp _ (by positivity) hv1
    obtain ⟨g3, g4⟩ := posScale_bound hp _ (by positivity) hv2
    exact ⟨g1, g2, g3, g4⟩

/-- Witness for C8 at the spec example: high-precision payload
"80000000,40000000#" decodes to (180.0, 90.0). -/
theorem get_position_decode_spec_witness :
    getPositionDecode true [56, 48, 48, 48, 48, 48, 48, 48, 44,
        52, 48, 48, 48, 48, 48, 48, 48, 35] =
      Except.ok (180, 90) := by
  have h := get_position_decode_spec true [56, 48, 48, 48, 48, 48, 48, 48]
      [52, 48, 48, 48, 48, 48, 48, 48] 2147483648 1073741824
      (by decide) (by decide) (by decide) (by decide) (by decide) (by decide) (by decide)
  have h1 := h.1
  rw [show [56, 48, 48, 48, 48, 48, 48, 48] ++ 44 :: ([52, 48, 48, 48, 48, 48, 48, 48] ++ [35]) =
      [56, 48, 48, 48, 48, 48, 48, 48, 44, 52, 48, 48, 48, 48, 48, 48, 48, 35] by decide] at h1
  refine h1.trans ?_
  rw [show (360 * ((2147483648 : ℤ) : ℚ) / posDenominator true,
      360 * ((1073741824 : ℤ) : ℚ) / posDenominator true) = ((180 : ℚ), (90 : ℚ)) by
    norm_num [posDenominator]]

/-- C8 counterexample: the high-precision payload "-0000001,00000000#" is
accepted by getPosition (Python int parses the signed field) and decodes to
a negative first angle, contradicting both the stated unsigned parsing and
the [0, 360) range. -/
theorem get_position_signed_counterexample :
    getPositionDecode true [45, 48, 48, 48, 48, 48, 48, 49, 44,
        48, 48, 48, 48, 48, 48, 48, 48, 35] =
      Except.ok (360 * ((-1 : ℤ) : ℚ) / posDenominator true,
                 360 * ((0 : ℤ) : ℚ) / posDenominator true)
    ∧ 360 * ((-1 : ℤ) : ℚ) / posDenominator true < 0 := by
  constructor
  · rfl
  · norm_num [posDenominator]
